import Mathlib

/-!
Verification of the content query layer of the blog platform
(`src/lib/db/queries.ts` over the Drizzle schema in `src/lib/db/schema.ts`).

The relational store is embedded shallowly: each table is a list of rows,
nullable columns are `Option`-valued (the schema marks `notNull` only on
`email`, `title`, `slug`, `name` and the `createdAt`/`updatedAt` columns),
timestamps are `Int`, and every query function of `queries.ts` becomes a
pure Lean function on a `Store`.  PostgreSQL behaviour that the queries rely
on is modelled explicitly:

* `LIMIT` / `OFFSET` reject negative arguments with an error
  (`sqlPage`, `sqlLimit`), so a query either fails or returns rows;
* `ORDER BY` is modelled as a stable sort (`List.insertionSort`), with
  `DESC` on a nullable timestamp placing nulls first, as PostgreSQL does;
* `ILIKE` is a real pattern matcher (`likeMatch`) in which `%`, `_` and the
  escape character `\` keep their SQL meaning, applied to lowercased text;
* a `LEFT JOIN` produces one row per matching right-hand row and one
  null-extended row when nothing matches, and `count(col)` counts the rows
  of a group whose `col` is non-null;
* `UPDATE ... RETURNING` maps the `SET` clause over all rows matched by the
  `WHERE` clause and also returns them (`sqlUpdate`); the JavaScript wrapper
  `result[0]?.viewCount || 0` is modelled by `jsOrZero`;
* `Math.ceil(total / limit)` on JavaScript numbers is `jsCeilDiv`, which is
  `none` (non-finite) when `limit = 0` and the exact rational ceiling
  otherwise.
-/

namespace Blog

/-- Role enum of the `users.role` column. -/
inductive Role where
  | admin
  | author
  | viewer
deriving DecidableEq, Repr

/-- Status enum of the `posts.status` column. -/
inductive PostStatus where
  | draft
  | published
  | archived
deriving DecidableEq, Repr

/-- Row of the `users` table. -/
structure User where
  id : String
  email : String
  name : Option String
  image : Option String
  emailVerified : Option Int
  role : Option Role
  createdAt : Int
  updatedAt : Int
deriving DecidableEq, Repr

/-- Row of the `posts` table. -/
structure Post where
  id : String
  title : String
  slug : String
  content : Option String
  excerpt : Option String
  coverImage : Option String
  status : Option PostStatus
  authorId : Option String
  aiGenerated : Option Bool
  seoTitle : Option String
  seoDescription : Option String
  viewCount : Option Int
  publishedAt : Option Int
  createdAt : Int
  updatedAt : Int
deriving DecidableEq, Repr

/-- Row of the `categories` table. -/
structure Category where
  id : String
  name : String
  slug : String
  description : Option String
  createdAt : Int
  updatedAt : Int
deriving DecidableEq, Repr

/-- Row of the `tags` table. -/
structure Tag where
  id : String
  name : String
  slug : String
  createdAt : Int
deriving DecidableEq, Repr

/-- Row of the `post_categories` junction table. -/
structure PostCategory where
  id : String
  postId : Option String
  categoryId : Option String
deriving DecidableEq, Repr

/-- Row of the `post_tags` junction table. -/
structure PostTag where
  id : String
  postId : Option String
  tagId : Option String
deriving DecidableEq, Repr

/-- The whole relational store: one list of rows per table. -/
structure Store where
  users : List User
  posts : List Post
  categories : List Category
  tags : List Tag
  postCategories : List PostCategory
  postTags : List PostTag
deriving DecidableEq, Repr

/-- Errors the PostgreSQL layer can raise for the statements issued here. -/
inductive QueryError where
  | limitNegative
  | offsetNegative
deriving DecidableEq, Repr

/-- PostgreSQL `LIMIT limit OFFSET offset`: negative values are rejected,
otherwise `offset` rows are skipped and at most `limit` rows returned. -/
def sqlPage (limit offset : Int) (l : List α) : Except QueryError (List α) :=
  if limit < 0 then .error .limitNegative
  else if offset < 0 then .error .offsetNegative
  else .ok ((l.drop offset.toNat).take limit.toNat)

/-- PostgreSQL `LIMIT limit` with no offset. -/
def sqlLimit (limit : Int) (l : List α) : Except QueryError (List α) :=
  if limit < 0 then .error .limitNegative
  else .ok (l.take limit.toNat)

/-- JavaScript `Math.ceil(total / limit)`: division by zero gives a
non-finite number (modelled `none`); otherwise the exact rational ceiling,
written with Euclidean integer division (`jsCeilDiv_pos` below proves
`-(-total / limit) = ⌈total / limit⌉` for `limit > 0`; the queries only
build a result after `LIMIT limit` succeeded, so `limit ≥ 0` on every
reachable use). -/
def jsCeilDiv (total limit : Int) : Option Int :=
  if limit = 0 then none else some (-(-total / limit))

/-- JavaScript `x || 0` on a possibly null / undefined number. -/
def jsOrZero : Option Int → Int
  | none => 0
  | some v => if v = 0 then 0 else v

/-- SQL `UPDATE tbl SET setF WHERE cond RETURNING *`: first component is the
updated table, second the list of updated rows (in table order). -/
def sqlUpdate (cond : α → Bool) (setF : α → α) (tbl : List α) : List α × List α :=
  (tbl.map fun x => if cond x then setF x else x,
   (tbl.filter cond).map setF)

/-- Case folding used by `ILIKE`. -/
def lowerChars (s : String) : List Char :=
  s.data.map Char.toLower

/-- SQL `LIKE` pattern matching on character lists: `%` matches any
sequence (some suffix of the text matches the rest of the pattern), `_` any
single character, `\c` the literal character `c`, and a pattern ending in a
bare `\` matches nothing. -/
def likeMatch : List Char → List Char → Bool
  | [], t => t.isEmpty
  | '%' :: ps, t => t.tails.any fun suf => likeMatch ps suf
  | '_' :: ps, t =>
    match t with
    | [] => false
    | _ :: ts => likeMatch ps ts
  | '\\' :: p :: ps, t =>
    match t with
    | [] => false
    | c :: ts => c == p && likeMatch ps ts
  | ['\\'], _ => false
  | p :: ps, t =>
    match t with
    | [] => false
    | c :: ts => c == p && likeMatch ps ts

/-- `column ILIKE pattern` on a non-null text column. -/
def ilikeStr (column pat : String) : Bool :=
  likeMatch (lowerChars pat) (lowerChars column)

/-- `column ILIKE pattern` on a nullable text column (`NULL` is not true). -/
def ilikeOpt (column : Option String) (pat : String) : Bool :=
  match column with
  | none => false
  | some s => ilikeStr s pat

/-- Author shape selected by the post queries (`{ id, name }`). -/
structure AuthorBrief where
  id : String
  name : Option String
deriving DecidableEq, Repr

/-- Row shape of `select (\x7b post, author \x7d) from posts leftJoin users`. -/
structure PostWithAuthor where
  post : Post
  author : Option AuthorBrief
deriving DecidableEq, Repr

/-- Row shape of the three-table join used by `getByCategory`. -/
structure CatRow where
  post : Post
  author : Option AuthorBrief
  pc : Option PostCategory
deriving DecidableEq, Repr

/-- Left join `posts leftJoin users on posts.authorId = users.id`: one row
per matching user, or a single row with a null author. -/
def leftJoinAuthor (ps : List Post) (us : List User) : List PostWithAuthor :=
  ps.flatMap fun p =>
    match us.filter (fun u => p.authorId == some u.id) with
    | [] => [⟨p, none⟩]
    | ms => ms.map fun u => ⟨p, some ⟨u.id, u.name⟩⟩

/-- Further left join on `postCategories` with `posts.id = postCategories.postId`. -/
def leftJoinPC (rows : List PostWithAuthor) (js : List PostCategory) : List CatRow :=
  rows.flatMap fun r =>
    match js.filter (fun j => j.postId == some r.post.id) with
    | [] => [⟨r.post, r.author, none⟩]
    | ms => ms.map fun j => ⟨r.post, r.author, some j⟩

/-- Descending order on a nullable timestamp; PostgreSQL `DESC` places
nulls first. -/
def pubDescOpt : Option Int → Option Int → Prop
  | none, _ => True
  | some _, none => False
  | some x, some y => y ≤ x

instance : DecidableRel pubDescOpt := fun a b =>
  match a, b with
  | none, _ => isTrue trivial
  | some _, none => isFalse id
  | some x, some y => inferInstanceAs (Decidable (y ≤ x))

instance : IsTotal (Option Int) pubDescOpt := by
  constructor
  intro a b
  cases a <;> cases b <;> simp [pubDescOpt] <;> omega

instance : IsTrans (Option Int) pubDescOpt := by
  constructor
  intro a b c h1 h2
  cases a <;> cases b <;> cases c <;> simp_all [pubDescOpt] <;> omega

/-- `orderBy desc(posts.publishedAt)` on joined rows. -/
def pubDescRow (a b : PostWithAuthor) : Prop :=
  pubDescOpt a.post.publishedAt b.post.publishedAt

instance : DecidableRel pubDescRow := fun a b =>
  inferInstanceAs (Decidable (pubDescOpt a.post.publishedAt b.post.publishedAt))

instance : IsTotal PostWithAuthor pubDescRow :=
  ⟨fun a b => IsTotal.total (r := pubDescOpt) a.post.publishedAt b.post.publishedAt⟩

instance : IsTrans PostWithAuthor pubDescRow :=
  ⟨fun _ _ _ h1 h2 => IsTrans.trans (r := pubDescOpt) _ _ _ h1 h2⟩

/-- `orderBy desc(posts.publishedAt)` on bare posts. -/
def pubDescPost (a b : Post) : Prop :=
  pubDescOpt a.publishedAt b.publishedAt

instance : DecidableRel pubDescPost := fun a b =>
  inferInstanceAs (Decidable (pubDescOpt a.publishedAt b.publishedAt))

instance : IsTotal Post pubDescPost :=
  ⟨fun a b => IsTotal.total (r := pubDescOpt) a.publishedAt b.publishedAt⟩

instance : IsTrans Post pubDescPost :=
  ⟨fun _ _ _ h1 h2 => IsTrans.trans (r := pubDescOpt) _ _ _ h1 h2⟩

/-- `orderBy desc(posts.publishedAt)` on `getByCategory` join rows. -/
def pubDescCatRow (a b : CatRow) : Prop :=
  pubDescOpt a.post.publishedAt b.post.publishedAt

instance : DecidableRel pubDescCatRow := fun a b =>
  inferInstanceAs (Decidable (pubDescOpt a.post.publishedAt b.post.publishedAt))

instance : IsTotal CatRow pubDescCatRow :=
  ⟨fun a b => IsTotal.total (r := pubDescOpt) a.post.publishedAt b.post.publishedAt⟩

instance : IsTrans CatRow pubDescCatRow :=
  ⟨fun _ _ _ h1 h2 => IsTrans.trans (r := pubDescOpt) _ _ _ h1 h2⟩

/-- `orderBy desc(posts.createdAt)` on joined rows. -/
def createdDescRow (a b : PostWithAuthor) : Prop :=
  b.post.createdAt ≤ a.post.createdAt

instance : DecidableRel createdDescRow := fun a b =>
  inferInstanceAs (Decidable (b.post.createdAt ≤ a.post.createdAt))

instance : IsTotal PostWithAuthor createdDescRow := ⟨fun a b => le_total _ _⟩

instance : IsTrans PostWithAuthor createdDescRow :=
  ⟨fun _ _ _ h1 h2 => le_trans h2 h1⟩

/-- `orderBy desc(users.createdAt)`. -/
def createdDescUser (a b : User) : Prop :=
  b.createdAt ≤ a.createdAt

instance : DecidableRel createdDescUser := fun a b =>
  inferInstanceAs (Decidable (b.createdAt ≤ a.createdAt))

instance : IsTotal User createdDescUser := ⟨fun a b => le_total _ _⟩

instance : IsTrans User createdDescUser := ⟨fun _ _ _ h1 h2 => le_trans h2 h1⟩

/-- `orderBy asc(categories.name)`. -/
def catNameAsc (a b : Category) : Prop :=
  a.name ≤ b.name

instance : DecidableRel catNameAsc := fun a b =>
  inferInstanceAs (Decidable (a.name ≤ b.name))

instance : IsTotal Category catNameAsc := ⟨fun a b => le_total _ _⟩

instance : IsTrans Category catNameAsc := ⟨fun _ _ _ h1 h2 => le_trans h1 h2⟩

/-- Result row of the category listing: `(category, postCount)`. -/
structure CategoryWithCount where
  category : Category
  postCount : Nat
deriving DecidableEq, Repr

/-- Result row of the tag listings: `(tag, postCount)`. -/
structure TagWithCount where
  tag : Tag
  postCount : Nat
deriving DecidableEq, Repr

/-- `orderBy desc(count(postTags.postId)), asc(tags.name)` of `tagQueries.getAll`. -/
def tagAllRel (a b : TagWithCount) : Prop :=
  b.postCount < a.postCount ∨ (a.postCount = b.postCount ∧ a.tag.name ≤ b.tag.name)

instance : DecidableRel tagAllRel := fun a b =>
  inferInstanceAs (Decidable (_ ∨ _))

instance : IsTotal TagWithCount tagAllRel := by
  constructor
  intro a b
  rcases Nat.lt_trichotomy a.postCount b.postCount with h | h | h
  · exact Or.inr (Or.inl h)
  · rcases le_total a.tag.name b.tag.name with hn | hn
    · exact Or.inl (Or.inr ⟨h, hn⟩)
    · exact Or.inr (Or.inr ⟨h.symm, hn⟩)
  · exact Or.inl (Or.inl h)

instance : IsTrans TagWithCount tagAllRel := by
  constructor
  intro a b c h1 h2
  rcases h1 with h1 | ⟨h1e, h1n⟩
  · rcases h2 with h2 | ⟨h2e, _⟩
    · exact Or.inl (lt_trans h2 h1)
    · exact Or.inl (h2e ▸ h1)
  · rcases h2 with h2 | ⟨h2e, h2n⟩
    · exact Or.inl (h1e ▸ h2)
    · exact Or.inr ⟨h1e.trans h2e, le_trans h1n h2n⟩

/-- `orderBy desc(count(postTags.postId))` of `tagQueries.getPopular`
(no tie-break). -/
def popRel (a b : TagWithCount) : Prop :=
  b.postCount ≤ a.postCount

instance : DecidableRel popRel := fun a b =>
  inferInstanceAs (Decidable (b.postCount ≤ a.postCount))

instance : IsTotal TagWithCount popRel := ⟨fun a b => le_total _ _⟩

instance : IsTrans TagWithCount popRel := ⟨fun _ _ _ h1 h2 => le_trans h2 h1⟩

/-- Paginated result of `postQueries.getPublished` / `postQueries.getAll`. -/
structure PostsPage where
  posts : List PostWithAuthor
  total : Nat
  page : Int
  limit : Int
  totalPages : Option Int
deriving DecidableEq, Repr

/-- Paginated result of `postQueries.search` (echoes the query string). -/
structure SearchPage where
  posts : List PostWithAuthor
  total : Nat
  page : Int
  limit : Int
  totalPages : Option Int
  query : String
deriving DecidableEq, Repr

/-- Paginated result of `postQueries.getByCategory`. -/
structure CategoryPage where
  posts : List PostWithAuthor
  category : Category
  total : Nat
  page : Int
  limit : Int
  totalPages : Option Int
deriving DecidableEq, Repr

/-- Paginated result of `userQueries.getAll`. -/
structure UsersPage where
  users : List User
  total : Nat
  page : Int
  limit : Int
  totalPages : Option Int
deriving DecidableEq, Repr

/-- Patch argument of `userQueries.update` (`Partial` of the insert shape:
an absent outer `Option` means the field is not mentioned by the caller). -/
structure UserPatch where
  id : Option String := none
  email : Option String := none
  name : Option (Option String) := none
  image : Option (Option String) := none
  emailVerified : Option (Option Int) := none
  role : Option (Option Role) := none
  createdAt : Option Int := none
  updatedAt : Option Int := none
deriving DecidableEq, Repr

/-- Patch argument of `postQueries.update`. -/
structure PostPatch where
  id : Option String := none
  title : Option String := none
  slug : Option String := none
  content : Option (Option String) := none
  excerpt : Option (Option String) := none
  coverImage : Option (Option String) := none
  status : Option (Option PostStatus) := none
  authorId : Option (Option String) := none
  aiGenerated : Option (Option Bool) := none
  seoTitle : Option (Option String) := none
  seoDescription : Option (Option String) := none
  viewCount : Option (Option Int) := none
  publishedAt : Option (Option Int) := none
  createdAt : Option Int := none
  updatedAt : Option Int := none
deriving DecidableEq, Repr

/-- The `SET` clause `\x7b ...userData, updatedAt: new Date() \x7d` of
`userQueries.update`: patched fields overwrite, `updatedAt` is always the
current time (the spread's own `updatedAt`, if any, is overwritten). -/
def applyUserPatch (pt : UserPatch) (now : Int) (u : User) : User :=
  { id := pt.id.getD u.id
    email := pt.email.getD u.email
    name := pt.name.getD u.name
    image := pt.image.getD u.image
    emailVerified := pt.emailVerified.getD u.emailVerified
    role := pt.role.getD u.role
    createdAt := pt.createdAt.getD u.createdAt
    updatedAt := now }

/-- The `SET` clause of `postQueries.update`. -/
def applyPostPatch (pt : PostPatch) (now : Int) (p : Post) : Post :=
  { id := pt.id.getD p.id
    title := pt.title.getD p.title
    slug := pt.slug.getD p.slug
    content := pt.content.getD p.content
    excerpt := pt.excerpt.getD p.excerpt
    coverImage := pt.coverImage.getD p.coverImage
    status := pt.status.getD p.status
    authorId := pt.authorId.getD p.authorId
    aiGenerated := pt.aiGenerated.getD p.aiGenerated
    seoTitle := pt.seoTitle.getD p.seoTitle
    seoDescription := pt.seoDescription.getD p.seoDescription
    viewCount := pt.viewCount.getD p.viewCount
    publishedAt := pt.publishedAt.getD p.publishedAt
    createdAt := pt.createdAt.getD p.createdAt
    updatedAt := now }

/-- `userQueries.getAll(page = 1, limit = 10)`. -/
def userQueries.getAll (s : Store) (page : Int := 1) (limit : Int := 10) :
    Except QueryError UsersPage :=
  let offset := (page - 1) * limit
  match sqlPage limit offset (List.insertionSort createdDescUser s.users) with
  | .error e => .error e
  | .ok pageRows =>
    let total := s.users.length
    .ok { users := pageRows, total := total, page := page, limit := limit,
          totalPages := jsCeilDiv (total : Int) limit }

/-- `userQueries.update(id, userData)`: `now` models `new Date()`; returns
`result[0] || null` together with the updated store. -/
def userQueries.update (s : Store) (id : String) (pt : UserPatch) (now : Int) :
    Option User × Store :=
  let (newUsers, ret) := sqlUpdate (fun u => u.id == id) (applyUserPatch pt now) s.users
  (ret.head?, { s with users := newUsers })

/-- `postQueries.getPublished(page = 1, limit = 10)`. -/
def postQueries.getPublished (s : Store) (page : Int := 1) (limit : Int := 10) :
    Except QueryError PostsPage :=
  let offset := (page - 1) * limit
  let rows := (leftJoinAuthor s.posts s.users).filter fun r =>
    r.post.status == some PostStatus.published
  match sqlPage limit offset (List.insertionSort pubDescRow rows) with
  | .error e => .error e
  | .ok pageRows =>
    let total := (s.posts.filter fun p => p.status == some PostStatus.published).length
    .ok { posts := pageRows, total := total, page := page, limit := limit,
          totalPages := jsCeilDiv (total : Int) limit }

/-- `postQueries.getAll(page = 1, limit = 10)` (drafts included). -/
def postQueries.getAll (s : Store) (page : Int := 1) (limit : Int := 10) :
    Except QueryError PostsPage :=
  let offset := (page - 1) * limit
  let rows := leftJoinAuthor s.posts s.users
  match sqlPage limit offset (List.insertionSort createdDescRow rows) with
  | .error e => .error e
  | .ok pageRows =>
    let total := s.posts.length
    .ok { posts := pageRows, total := total, page := page, limit := limit,
          totalPages := jsCeilDiv (total : Int) limit }

/-- The `where` clause of `postQueries.search`:
`and(eq(status, published), or(ilike(title), ilike(content), ilike(excerpt)))`. -/
def searchPred (pat : String) (p : Post) : Bool :=
  p.status == some PostStatus.published &&
    (ilikeStr p.title pat || ilikeOpt p.content pat || ilikeOpt p.excerpt pat)

/-- `postQueries.search(query, page = 1, limit = 10)`; the pattern is the
unescaped interpolation `%query%`. -/
def postQueries.search (s : Store) (query : String) (page : Int := 1)
    (limit : Int := 10) : Except QueryError SearchPage :=
  let offset := (page - 1) * limit
  let searchPattern := "%" ++ query ++ "%"
  let rows := (leftJoinAuthor s.posts s.users).filter fun r =>
    searchPred searchPattern r.post
  match sqlPage limit offset (List.insertionSort pubDescRow rows) with
  | .error e => .error e
  | .ok pageRows =>
    let total := (s.posts.filter (searchPred searchPattern)).length
    .ok { posts := pageRows, total := total, page := page, limit := limit,
          totalPages := jsCeilDiv (total : Int) limit, query := query }

/-- The `where` clause of `postQueries.getByCategory` on a join row:
`and(eq(posts.status, published), eq(postCategories.categoryId, cat.id))`
(`NULL` comparisons are not true). -/
def catRowPred (catId : String) (r : CatRow) : Bool :=
  r.post.status == some PostStatus.published &&
    (match r.pc with
     | some j => j.categoryId == some catId
     | none => false)

/-- `postQueries.getByCategory(categorySlug, page = 1, limit = 10)`: the
category is resolved first and a missing slug returns `null` before any
paginated query runs. -/
def postQueries.getByCategory (s : Store) (categorySlug : String)
    (page : Int := 1) (limit : Int := 10) :
    Except QueryError (Option CategoryPage) :=
  let offset := (page - 1) * limit
  match (s.categories.filter fun c => c.slug == categorySlug).head? with
  | none => .ok none
  | some cat =>
    let rows := (leftJoinPC (leftJoinAuthor s.posts s.users) s.postCategories).filter
      (catRowPred cat.id)
    match sqlPage limit offset (List.insertionSort pubDescCatRow rows) with
    | .error e => .error e
    | .ok pageRows =>
      let total := rows.length
      .ok (some { posts := pageRows.map fun r => ⟨r.post, r.author⟩,
                  category := cat, total := total, page := page, limit := limit,
                  totalPages := jsCeilDiv (total : Int) limit })

/-- `postQueries.incrementViews(id)`: `now` models `new Date()`; the `SET`
clause is the server-side expression `viewCount = viewCount + 1` (SQL
`NULL + 1` stays `NULL`) together with `updatedAt = now`; the return value
is `result[0]?.viewCount || 0`. -/
def postQueries.incrementViews (s : Store) (id : String) (now : Int) :
    Int × Store :=
  let (newPosts, ret) := sqlUpdate (fun p => p.id == id)
    (fun p => { p with viewCount := p.viewCount.map (· + 1), updatedAt := now })
    s.posts
  (jsOrZero (ret.head?.bind Post.viewCount), { s with posts := newPosts })

/-- `postQueries.update(id, postData)`. -/
def postQueries.update (s : Store) (id : String) (pt : PostPatch) (now : Int) :
    Option Post × Store :=
  let (newPosts, ret) := sqlUpdate (fun p => p.id == id) (applyPostPatch pt now) s.posts
  (ret.head?, { s with posts := newPosts })

/-- Rows contributed by one `postCategories` junction row in the second
left join of the category listing: one row per matching published post, or
a single null-extended row when none matches. -/
def catRowsFor (s : Store) (j : PostCategory) : List (Option PostCategory × Option Post) :=
  match s.posts.filter (fun p =>
      j.postId == some p.id && p.status == some PostStatus.published) with
  | [] => [(some j, none)]
  | ps => ps.map fun p => (some j, some p)

/-- Group rows of one category in
`categories leftJoin postCategories leftJoin posts (on published)`:
for every junction row of the category the rows of `catRowsFor`; a category
with no junction rows yields a single fully null-extended row. -/
def catJoinRows (s : Store) (c : Category) : List (Option PostCategory × Option Post) :=
  match s.postCategories.filter (fun j => j.categoryId == some c.id) with
  | [] => [(none, none)]
  | js => js.flatMap (catRowsFor s)

/-- Rows contributed by one `postTags` junction row in the second left join
of the tag listings. -/
def tagRowsFor (s : Store) (j : PostTag) : List (Option PostTag × Option Post) :=
  match s.posts.filter (fun p =>
      j.postId == some p.id && p.status == some PostStatus.published) with
  | [] => [(some j, none)]
  | ps => ps.map fun p => (some j, some p)

/-- Group rows of one tag in
`tags leftJoin postTags leftJoin posts (on published)`. -/
def tagJoinRows (s : Store) (t : Tag) : List (Option PostTag × Option Post) :=
  match s.postTags.filter (fun j => j.tagId == some t.id) with
  | [] => [(none, none)]
  | js => js.flatMap (tagRowsFor s)

/-- `count(postCategories.postId)` over the group of one category: rows
whose junction `postId` is non-null. -/
def catPostCount (s : Store) (c : Category) : Nat :=
  (catJoinRows s c).countP fun r => (r.1.bind PostCategory.postId).isSome

/-- `count(postTags.postId)` over the group of one tag. -/
def tagPostCount (s : Store) (t : Tag) : Nat :=
  (tagJoinRows s t).countP fun r => (r.1.bind PostTag.postId).isSome

/-- `categoryQueries.getAll()`: grouped by the category primary key,
ordered by ascending name. -/
def categoryQueries.getAll (s : Store) : List CategoryWithCount :=
  (List.insertionSort catNameAsc s.categories).map fun c =>
    ⟨c, catPostCount s c⟩

/-- `tagQueries.getAll()`: grouped by the tag primary key, ordered by
descending junction count then ascending name. -/
def tagQueries.getAll (s : Store) : List TagWithCount :=
  List.insertionSort tagAllRel (s.tags.map fun t => ⟨t, tagPostCount s t⟩)

/-- `tagQueries.getPopular(limit = 10)`: `having count(postTags.postId) > 0`,
ordered by descending junction count only, limited. -/
def tagQueries.getPopular (s : Store) (limit : Int := 10) :
    Except QueryError (List TagWithCount) :=
  let rows := (s.tags.map fun t => (⟨t, tagPostCount s t⟩ : TagWithCount)).filter
    fun e => 0 < e.postCount
  sqlLimit limit (List.insertionSort popRel rows)

instance {ε α} [DecidableEq ε] [DecidableEq α] : DecidableEq (Except ε α) := fun a b =>
  match a, b with
  | .error e, .error f =>
    if h : e = f then isTrue (by rw [h])
    else isFalse (by intro hc; cases hc; exact h rfl)
  | .error _, .ok _ => isFalse (by intro hc; cases hc)
  | .ok _, .error _ => isFalse (by intro hc; cases hc)
  | .ok x, .ok y =>
    if h : x = y then isTrue (by rw [h])
    else isFalse (by intro hc; cases hc; exact h rfl)

/-- Closed form of the author column produced by `leftJoinAuthor` when user
ids are unique: the first (only) user whose id matches `authorId`. -/
def authorFor (us : List User) (p : Post) : Option AuthorBrief :=
  ((us.filter fun u => p.authorId == some u.id).head?).map fun u => ⟨u.id, u.name⟩

/-- Specification reading (used only to compare against the code): whether
`needle` occurs as a contiguous sublist of `hay`. -/
def subListContains (hay needle : List Char) : Bool :=
  match hay with
  | [] => needle.isEmpty
  | _ :: rest => needle.isPrefixOf hay || subListContains rest needle

/-- Specification reading (used only to compare against the code):
case-insensitive substring occurrence, the spec's description of search. -/
def specContainsCI (hay needle : String) : Bool :=
  subListContains (lowerChars hay) (lowerChars needle)

/-- Specification reading (used only to compare against the code): the
number of published posts linked to a category through the junction table,
the count the spec says the category listing reports. -/
def specPublishedCatCount (s : Store) (c : Category) : Nat :=
  (s.posts.filter fun p =>
    p.status == some PostStatus.published &&
      s.postCategories.any fun j =>
        j.postId == some p.id && j.categoryId == some c.id).length

/-- Specification reading (used only to compare against the code): the
number of published posts linked to a tag through the junction table. -/
def specPublishedTagCount (s : Store) (t : Tag) : Nat :=
  (s.posts.filter fun p =>
    p.status == some PostStatus.published &&
      s.postTags.any fun j =>
        j.postId == some p.id && j.tagId == some t.id).length

/-- Base post row for concrete test stores. -/
def post0 : Post :=
  { id := "p0", title := "t", slug := "s", content := none, excerpt := none,
    coverImage := none, status := none, authorId := none, aiGenerated := none,
    seoTitle := none, seoDescription := none, viewCount := some 0,
    publishedAt := none, createdAt := 0, updatedAt := 0 }

/-- Store with no rows at all. -/
def emptyStore : Store := ⟨[], [], [], [], [], []⟩

/-- Admin user of the concrete stores. -/
def u1 : User :=
  { id := "u1", email := "a@b.c", name := some "Ann", image := none,
    emailVerified := none, role := some .admin, createdAt := 5, updatedAt := 5 }

/-- A draft post. -/
def pDraft : Post :=
  { post0 with
    id := "pd", title := "Draft post", slug := "draft-post",
    status := some .draft, createdAt := 4 }

/-- A published post with the later publication date and an author. -/
def pPub1 : Post :=
  { post0 with
    id := "pp1", title := "First", slug := "first",
    status := some .published, publishedAt := some 2, viewCount := some 7,
    authorId := some "u1", createdAt := 1 }

/-- A published post with the earlier publication date. -/
def pPub2 : Post :=
  { post0 with
    id := "pp2", title := "Second", slug := "second",
    status := some .published, publishedAt := some 1, createdAt := 2 }

/-- An archived post. -/
def pArch : Post :=
  { post0 with
    id := "pa", title := "Old", slug := "old",
    status := some .archived, createdAt := 3 }

/-- Mixed store: one user, one draft, two published posts, one archived. -/
def storeW : Store :=
  { users := [u1], posts := [pDraft, pPub1, pPub2, pArch], categories := [],
    tags := [], postCategories := [], postTags := [] }

/-- A category whose only linked post is a draft. -/
def cat1 : Category :=
  { id := "c1", name := "Tech", slug := "technology", description := none,
    createdAt := 0, updatedAt := 0 }

/-- Tag named "b" (first in table order). -/
def tag1 : Tag := { id := "t1", name := "b", slug := "b", createdAt := 0 }

/-- Tag named "a" (second in table order). -/
def tag2 : Tag := { id := "t2", name := "a", slug := "a", createdAt := 0 }

/-- Store where the only post linked to `cat1` and `tag1` is a draft. -/
def storeC1 : Store :=
  { users := [], posts := [pDraft], categories := [cat1], tags := [tag1],
    postCategories := [{ id := "pc1", postId := some "pd", categoryId := some "c1" }],
    postTags := [{ id := "pt1", postId := some "pd", tagId := some "t1" }] }

/-- Store where `tag1` ("b") is linked to two draft posts and `tag2` ("a")
to one published post. -/
def storeC3a : Store :=
  { users := [],
    posts := [pDraft,
              { post0 with id := "pd2", title := "D2", slug := "d2", status := some .draft },
              pPub1],
    categories := [], tags := [tag1, tag2], postCategories := [],
    postTags := [{ id := "j1", postId := some "pd", tagId := some "t1" },
                 { id := "j2", postId := some "pd2", tagId := some "t1" },
                 { id := "j3", postId := some "pp1", tagId := some "t2" }] }

/-- Store where tags "b" and "a" are each linked to one published post
(a popularity tie). -/
def storeC3b : Store :=
  { users := [], posts := [pPub1, pPub2], categories := [], tags := [tag1, tag2],
    postCategories := [],
    postTags := [{ id := "j1", postId := some "pp1", tagId := some "t1" },
                 { id := "j2", postId := some "pp2", tagId := some "t2" }] }

/-- A published post titled "hello" with null content and excerpt. -/
def pHello : Post :=
  { post0 with
    id := "ph", title := "hello", slug := "hello",
    status := some .published, publishedAt := some 1 }

/-- Store with the single published post `pHello`. -/
def storeC4 : Store :=
  { users := [], posts := [pHello], categories := [], tags := [],
    postCategories := [], postTags := [] }

theorem jsCeilDiv_pos (total limit : Int) (h : 0 < limit) :
    jsCeilDiv total limit = some ⌈(total : ℚ) / (limit : ℚ)⌉ := by
  unfold jsCeilDiv
  rw [if_neg (by omega)]
  congr 1
  have hd : ((limit.toNat : ℕ) : ℤ) = limit := Int.toNat_of_nonneg h.le
  have h1 : -⌊-((total : ℚ) / (limit : ℚ))⌋ = ⌈(total : ℚ) / (limit : ℚ)⌉ := by
    rw [Int.floor_neg, neg_neg]
  rw [← h1]
  have h2 : -((total : ℚ) / (limit : ℚ)) =
      (((-total : ℤ) : ℚ)) / (((limit.toNat : ℕ)) : ℚ) := by
    have : (((limit.toNat : ℕ)) : ℚ) = ((limit : ℤ) : ℚ) := by exact_mod_cast hd
    rw [this]
    push_cast
    ring
  rw [h2, Rat.floor_intCast_div_natCast, hd]

theorem sqlPage_ok {α} (limit offset : Int) (l : List α) (h1 : 0 ≤ limit)
    (h2 : 0 ≤ offset) :
    sqlPage limit offset l = .ok ((l.drop offset.toNat).take limit.toNat) := by
  unfold sqlPage
  rw [if_neg (by omega), if_neg (by omega)]

theorem sqlLimit_ok {α} (limit : Int) (l : List α) (h1 : 0 ≤ limit) :
    sqlLimit limit l = .ok (l.take limit.toNat) := by
  unfold sqlLimit
  rw [if_neg (by omega)]

theorem sqlPage_isOk_iff {α} (limit offset : Int) (l : List α) :
    (∃ v, sqlPage limit offset l = .ok v) ↔ 0 ≤ limit ∧ 0 ≤ offset := by
  unfold sqlPage
  split_ifs with h1 h2
  · constructor
    · rintro ⟨v, hv⟩; cases hv
    · rintro ⟨hl, _⟩; omega
  · constructor
    · rintro ⟨v, hv⟩; cases hv
    · rintro ⟨_, ho⟩; omega
  · constructor
    · intro _; exact ⟨by omega, by omega⟩
    · intro _; exact ⟨_, rfl⟩

theorem filter_key_eq_singleton {α β} [DecidableEq β] (f : α → β) (a : α) :
    ∀ l : List α, (l.map f).Nodup → a ∈ l →
      l.filter (fun x => f x == f a) = [a]
  | [], _, hmem => absurd hmem (List.not_mem_nil a)
  | b :: l, hnd, hmem => by
    rw [List.map_cons, List.nodup_cons] at hnd
    rcases List.mem_cons.mp hmem with heq | hmem'
    · subst heq
      rw [List.filter_cons, if_pos (by simp)]
      have : l.filter (fun x => f x == f a) = [] := by
        refine List.filter_eq_nil_iff.mpr fun x hx hfx => ?_
        exact hnd.1 (beq_iff_eq.mp hfx ▸ List.mem_map_of_mem f hx)
      rw [this]
    · have hne : f b ≠ f a := by
        intro hcontra
        exact hnd.1 (hcontra ▸ List.mem_map_of_mem f hmem')
      rw [List.filter_cons, if_neg (by simpa using hne)]
      exact filter_key_eq_singleton f a l hnd.2 hmem'

theorem length_filter_le_one_of_key {α β} [DecidableEq β] (f : α → β) (b : β)
    (p : α → Bool) (hp : ∀ x, p x = true → f x = b) :
    ∀ l : List α, (l.map f).Nodup → (l.filter p).length ≤ 1
  | [], _ => by simp
  | a :: l, hnd => by
    rw [List.map_cons, List.nodup_cons] at hnd
    by_cases hpa : p a = true
    · rw [List.filter_cons, if_pos hpa]
      have : l.filter p = [] := by
        refine List.filter_eq_nil_iff.mpr fun x hx hpx => ?_
        exact hnd.1 ((hp a hpa).trans (hp x hpx).symm ▸ List.mem_map_of_mem f hx)
      simp [this]
    · rw [List.filter_cons, if_neg hpa]
      exact length_filter_le_one_of_key f b p hp l hnd.2

theorem leftJoinAuthor_eq_map (ps : List Post) (us : List User)
    (h : (us.map User.id).Nodup) :
    leftJoinAuthor ps us = ps.map fun p => ⟨p, authorFor us p⟩ := by
  have hnd : (us.map fun u => some u.id).Nodup := by
    have he : (us.map fun u => some u.id) = (us.map User.id).map some := by
      rw [List.map_map]
      rfl
    rw [he]
    exact h.map fun _ _ hs => Option.some_injective _ hs
  induction ps with
  | nil => rfl
  | cons p ps ih =>
    have hone : (match us.filter (fun u => p.authorId == some u.id) with
        | [] => [(⟨p, none⟩ : PostWithAuthor)]
        | ms => ms.map fun u => ⟨p, some ⟨u.id, u.name⟩⟩) = [⟨p, authorFor us p⟩] := by
      have hlen := length_filter_le_one_of_key (fun u => some u.id) p.authorId
        (fun u => p.authorId == some u.id)
        (fun u hu => (beq_iff_eq.mp hu).symm) us hnd
      cases hres : us.filter (fun u => p.authorId == some u.id) with
      | nil => simp [authorFor, hres]
      | cons u tl =>
        have htl : tl = [] := by
          rw [hres] at hlen
          simpa using hlen
        subst htl
        simp [authorFor, hres]
    simp only [leftJoinAuthor, List.flatMap_cons] at *
    rw [hone, List.singleton_append, List.map_cons, ← ih]

theorem map_cond_beq {α β} [DecidableEq β] (f : α → β) (b : β) (g : α → α)
    (l : List α) :
    (l.map fun x => if f x == b then g x else x) =
      l.map fun x => if f x = b then g x else x := by
  refine List.map_congr_left fun x _ => ?_
  by_cases h : f x = b <;> simp [h]

theorem countP_flatMap {α β} (p : β → Bool) (f : α → List β) :
    ∀ l : List α, (l.flatMap f).countP p = (l.map fun a => (f a).countP p).sum
  | [] => rfl
  | a :: l => by
    rw [List.flatMap_cons, List.countP_append, List.map_cons, List.sum_cons,
      countP_flatMap p f l]

theorem sum_ite_eq_countP {α} (p : α → Bool) :
    ∀ l : List α, (l.map fun a => if p a then 1 else 0).sum = l.countP p
  | [] => rfl
  | a :: l => by
    rw [List.map_cons, List.sum_cons, sum_ite_eq_countP p l, List.countP_cons]
    by_cases h : p a <;> simp [h] <;> omega

theorem getPublished_ok (s : Store) (page limit : Int) (h1 : 0 ≤ limit)
    (h2 : 0 ≤ (page - 1) * limit) :
    postQueries.getPublished s page limit = .ok
      { posts := ((List.insertionSort pubDescRow
            ((leftJoinAuthor s.posts s.users).filter fun r =>
              r.post.status == some PostStatus.published)).drop
            ((page - 1) * limit).toNat).take limit.toNat,
        total := (s.posts.filter fun p => p.status == some PostStatus.published).length,
        page := page, limit := limit,
        totalPages := jsCeilDiv
          ((s.posts.filter fun p => p.status == some PostStatus.published).length : Int)
          limit } := by
  simp only [postQueries.getPublished]
  rw [sqlPage_ok _ _ _ h1 h2]

theorem getAllPosts_ok (s : Store) (page limit : Int) (h1 : 0 ≤ limit)
    (h2 : 0 ≤ (page - 1) * limit) :
    postQueries.getAll s page limit = .ok
      { posts := ((List.insertionSort createdDescRow
            (leftJoinAuthor s.posts s.users)).drop
            ((page - 1) * limit).toNat).take limit.toNat,
        total := s.posts.length,
        page := page, limit := limit,
        totalPages := jsCeilDiv (s.posts.length : Int) limit } := by
  simp only [postQueries.getAll]
  rw [sqlPage_ok _ _ _ h1 h2]

theorem search_ok (s : Store) (q : String) (page limit : Int) (h1 : 0 ≤ limit)
    (h2 : 0 ≤ (page - 1) * limit) :
    postQueries.search s q page limit = .ok
      { posts := ((List.insertionSort pubDescRow
            ((leftJoinAuthor s.posts s.users).filter fun r =>
              searchPred ("%" ++ q ++ "%") r.post)).drop
            ((page - 1) * limit).toNat).take limit.toNat,
        total := (s.posts.filter (searchPred ("%" ++ q ++ "%"))).length,
        page := page, limit := limit,
        totalPages := jsCeilDiv
          ((s.posts.filter (searchPred ("%" ++ q ++ "%"))).length : Int) limit,
        query := q } := by
  simp only [postQueries.search]
  rw [sqlPage_ok _ _ _ h1 h2]

theorem getAllUsers_ok (s : Store) (page limit : Int) (h1 : 0 ≤ limit)
    (h2 : 0 ≤ (page - 1) * limit) :
    userQueries.getAll s page limit = .ok
      { users := ((List.insertionSort createdDescUser s.users).drop
            ((page - 1) * limit).toNat).take limit.toNat,
        total := s.users.length,
        page := page, limit := limit,
        totalPages := jsCeilDiv (s.users.length : Int) limit } := by
  simp only [userQueries.getAll]
  rw [sqlPage_ok _ _ _ h1 h2]

theorem getPublished_isOk_iff (s : Store) (page limit : Int) :
    (∃ r, postQueries.getPublished s page limit = .ok r) ↔
      0 ≤ limit ∧ 0 ≤ (page - 1) * limit := by
  constructor
  · rintro ⟨r, hr⟩
    simp only [postQueries.getPublished] at hr
    split at hr
    · exact absurd hr (by simp)
    · next v heq =>
      unfold sqlPage at heq
      split_ifs at heq with ha hb
      exact ⟨by omega, by omega⟩
  · rintro ⟨hl, ho⟩
    exact ⟨_, getPublished_ok s page limit hl ho⟩

theorem getAllPosts_isOk_iff (s : Store) (page limit : Int) :
    (∃ r, postQueries.getAll s page limit = .ok r) ↔
      0 ≤ limit ∧ 0 ≤ (page - 1) * limit := by
  constructor
  · rintro ⟨r, hr⟩
    simp only [postQueries.getAll] at hr
    split at hr
    · exact absurd hr (by simp)
    · next v heq =>
      unfold sqlPage at heq
      split_ifs at heq with ha hb
      exact ⟨by omega, by omega⟩
  · rintro ⟨hl, ho⟩
    exact ⟨_, getAllPosts_ok s page limit hl ho⟩

theorem search_isOk_iff (s : Store) (q : String) (page limit : Int) :
    (∃ r, postQueries.search s q page limit = .ok r) ↔
      0 ≤ limit ∧ 0 ≤ (page - 1) * limit := by
  constructor
  · rintro ⟨r, hr⟩
    simp only [postQueries.search] at hr
    split at hr
    · exact absurd hr (by simp)
    · next v heq =>
      unfold sqlPage at heq
      split_ifs at heq with ha hb
      exact ⟨by omega, by omega⟩
  · rintro ⟨hl, ho⟩
    exact ⟨_, search_ok s q page limit hl ho⟩

theorem getAllUsers_isOk_iff (s : Store) (page limit : Int) :
    (∃ r, userQueries.getAll s page limit = .ok r) ↔
      0 ≤ limit ∧ 0 ≤ (page - 1) * limit := by
  constructor
  · rintro ⟨r, hr⟩
    simp only [userQueries.getAll] at hr
    split at hr
    · exact absurd hr (by simp)
    · next v heq =>
      unfold sqlPage at heq
      split_ifs at heq with ha hb
      exact ⟨by omega, by omega⟩
  · rintro ⟨hl, ho⟩
    exact ⟨_, getAllUsers_ok s page limit hl ho⟩

theorem take_length_int {α} (l : List α) (limit : Int) (h : 0 ≤ limit) :
    ((l.take limit.toNat).length : Int) ≤ limit := by
  have h2 : (l.take limit.toNat).length ≤ limit.toNat := List.length_take_le _ _
  calc ((l.take limit.toNat).length : Int) ≤ (limit.toNat : Int) := by exact_mod_cast h2
    _ = limit := Int.toNat_of_nonneg h

theorem jsCeilDiv_natCast (n : ℕ) (limit : Int) (h : 0 < limit) :
    jsCeilDiv (n : Int) limit = some ⌈(n : ℚ) / (limit : ℚ)⌉ := by
  rw [jsCeilDiv_pos _ _ h]
  norm_cast

/-- C1: evaluation of the code at the failing store.  In `storeC1` the only
post linked to the category and to the tag is a draft, yet
`categoryQueries.getAll` and `tagQueries.getAll` both report `postCount = 1`,
while the published-post count the spec describes is `0`: the left join to
`posts` with the published filter cannot remove junction rows, and the query
counts `count(postCategories.postId)` / `count(postTags.postId)`, so
unpublished posts do inflate the reported counts. -/
theorem C1_code_eval :
    categoryQueries.getAll storeC1 = [⟨cat1, 1⟩] ∧
    tagQueries.getAll storeC1 = [⟨tag1, 1⟩] ∧
    specPublishedCatCount storeC1 cat1 = 0 ∧
    specPublishedTagCount storeC1 tag1 = 0 ∧
    (∀ p ∈ storeC1.posts, p.status ≠ some PostStatus.published) := by
  decide

/-- C2 counterexample: with `page = 0` and `pageSize = 10` the operation
computes `offset = -10` and the store rejects the query, so the result is a
query error, not the page the normalized input `page = 1` returns. -/
theorem C2_counterexample :
    postQueries.getPublished emptyStore 0 10 = .error .offsetNegative ∧
    postQueries.getPublished emptyStore 1 10 =
      .ok { posts := [], total := 0, page := 1, limit := 10, totalPages := some 0 } ∧
    postQueries.getPublished emptyStore 0 10 ≠ postQueries.getPublished emptyStore 1 10 := by
  decide

/-- C2 amended: missing page/pageSize arguments default to `page = 1`,
`pageSize = 10`, but supplied values are not normalized: each paginated
operation passes `limit = pageSize` and `offset = (page-1)*pageSize` to the
store unchanged and succeeds exactly when both are non-negative; otherwise
it propagates the store's error instead of returning a normalized page. -/
theorem C2_pagination_passthrough (s : Store) (q : String) (page limit : Int) :
    (postQueries.getPublished s = postQueries.getPublished s 1 10 ∧
     postQueries.getAll s = postQueries.getAll s 1 10 ∧
     postQueries.search s q = postQueries.search s q 1 10 ∧
     userQueries.getAll s = userQueries.getAll s 1 10) ∧
    ((∃ r, postQueries.getPublished s page limit = .ok r) ↔
        0 ≤ limit ∧ 0 ≤ (page - 1) * limit) ∧
    ((∃ r, postQueries.getAll s page limit = .ok r) ↔
        0 ≤ limit ∧ 0 ≤ (page - 1) * limit) ∧
    ((∃ r, postQueries.search s q page limit = .ok r) ↔
        0 ≤ limit ∧ 0 ≤ (page - 1) * limit) ∧
    ((∃ r, userQueries.getAll s page limit = .ok r) ↔
        0 ≤ limit ∧ 0 ≤ (page - 1) * limit) :=
  ⟨⟨rfl, rfl, rfl, rfl⟩, getPublished_isOk_iff s page limit,
    getAllPosts_isOk_iff s page limit, search_isOk_iff s q page limit,
    getAllUsers_isOk_iff s page limit⟩

/-- C3 counterexample: in `storeC3a` the tag "b" is linked to two drafts and
the tag "a" to one published post, yet `tagQueries.getAll` lists "b" first —
the published-post counts along the returned order are `[0, 1]`, which is
not descending; and in the tie store `storeC3b` `tagQueries.getPopular`
returns "b" before "a" even though both counts are 1 and `"b" ≤ "a"` fails,
so there is no ascending-name tie-break. -/
theorem C3_counterexample :
    (tagQueries.getAll storeC3a).map
        (fun e => (e.tag.name, specPublishedTagCount storeC3a e.tag)) =
      [("b", 0), ("a", 1)] ∧
    ¬ List.Sorted (fun x y : String × Nat => y.2 ≤ x.2) [("b", 0), ("a", 1)] ∧
    tagQueries.getPopular storeC3b 10 = .ok [⟨tag1, 1⟩, ⟨tag2, 1⟩] ∧
    tag1.name = "b" ∧ tag2.name = "a" ∧ ¬ (tag1.name ≤ tag2.name) := by
  refine ⟨by decide, by decide, by decide, rfl, rfl, ?_⟩
  rw [String.le_iff_toList_le]
  decide

/-- C4 counterexample: the search query is interpolated into the `ILIKE`
pattern unescaped, so the query string `"%"` matches the published post
titled "hello" although `"%"` does not occur as a substring of any of its
three searched fields (content and excerpt are null). -/
theorem C4_counterexample :
    postQueries.search storeC4 "%" 1 10 = .ok
      { posts := [⟨pHello, none⟩], total := 1, page := 1, limit := 10,
        totalPages := some 1, query := "%" } ∧
    specContainsCI pHello.title "%" = false ∧
    pHello.content = none ∧ pHello.excerpt = none ∧
    pHello.status = some PostStatus.published := by
  decide

/-- C5: for a post present in the store (with unique post ids and a non-null
counter, the schema's invariants), `incrementViews` stores `viewCount + 1`
together with `updatedAt = now` via the server-side `SET` expression and
returns the new, post-increment counter value. -/
theorem C5_incrementViews_adds_one (s : Store) (id : String) (now : Int)
    (p : Post) (v : Int) (hP : (s.posts.map Post.id).Nodup) (hmem : p ∈ s.posts)
    (hid : p.id = id) (hvc : p.viewCount = some v) :
    (postQueries.incrementViews s id now).fst = v + 1 ∧
    { p with viewCount := some (v + 1), updatedAt := now } ∈
      (postQueries.incrementViews s id now).snd.posts := by
  have hfil : s.posts.filter (fun x => x.id == id) = [p] := by
    have h0 := filter_key_eq_singleton Post.id p s.posts hP hmem
    rw [hid] at h0
    exact h0
  constructor
  · simp only [postQueries.incrementViews, sqlUpdate]
    rw [hfil]
    simp [jsOrZero, hvc]
    omega
  · simp only [postQueries.incrementViews, sqlUpdate]
    refine List.mem_map.mpr ⟨p, hmem, ?_⟩
    rw [if_pos (by simp [hid])]
    simp [hvc]

/-- C5 witness: the concrete store `storeW` holds the post `pPub1` with id
"pp1" and `viewCount = some 7`; incrementing returns 8 and stores the bumped
row with the new timestamp. -/
theorem C5_incrementViews_witness :
    (storeW.posts.map Post.id).Nodup ∧ pPub1 ∈ storeW.posts ∧
    pPub1.id = "pp1" ∧ pPub1.viewCount = some 7 ∧
    ((postQueries.incrementViews storeW "pp1" 99).fst = 7 + 1 ∧
     { pPub1 with viewCount := some (7 + 1), updatedAt := 99 } ∈
       (postQueries.incrementViews storeW "pp1" 99).snd.posts) :=
  ⟨by decide, by decide, by decide, by decide,
    C5_incrementViews_adds_one storeW "pp1" 99 pPub1 7 (by decide) (by decide)
      (by decide) (by decide)⟩

/-- C6: `getByCategory` returns the absent result `ok none` exactly when no
category in the store carries the requested slug; a category that exists
(even with zero published posts) always produces a present result, so "no
such category" is distinguishable from an empty page, and no fallback to the
unfiltered published list happens inside the operation. -/
theorem C6_getByCategory_not_found (s : Store) (slug : String) (page limit : Int) :
    postQueries.getByCategory s slug page limit = .ok none ↔
      ∀ c ∈ s.categories, c.slug ≠ slug := by
  cases hfe : s.categories.filter (fun c => c.slug == slug) with
  | nil =>
    have hlhs : postQueries.getByCategory s slug page limit = .ok none := by
      simp only [postQueries.getByCategory, hfe, List.head?_nil]
    constructor
    · intro _ c hc hcs
      exact List.filter_eq_nil_iff.mp hfe c hc (by simp [hcs])
    · intro _
      exact hlhs
  | cons cat tl =>
    have hmemf : cat ∈ s.categories.filter (fun c => c.slug == slug) := by
      rw [hfe]
      exact List.mem_cons_self cat tl
    have hcs : cat.slug = slug := beq_iff_eq.mp (List.mem_filter.mp hmemf).2
    have hcm : cat ∈ s.categories := List.mem_of_mem_filter hmemf
    have hne : postQueries.getByCategory s slug page limit ≠ .ok none := by
      simp only [postQueries.getByCategory, hfe, List.head?_cons]
      cases hsp : sqlPage limit ((page - 1) * limit)
          (List.insertionSort pubDescCatRow
            ((leftJoinPC (leftJoinAuthor s.posts s.users) s.postCategories).filter
              (catRowPred cat.id))) with
      | error e => simp
      | ok v => simp
    constructor
    · intro h
      exact absurd h hne
    · intro hall
      exact absurd hcs (hall cat hcm)

/-- C6 witness: in `storeC1` the slug "nonexistent-slug" matches no
category, while "technology" does (the instantiated equivalence). -/
theorem C6_getByCategory_witness :
    (postQueries.getByCategory storeC1 "nonexistent-slug" 1 10 = .ok none ↔
      ∀ c ∈ storeC1.categories, c.slug ≠ "nonexistent-slug") ∧
    (postQueries.getByCategory storeC1 "technology" 1 10 = .ok none ↔
      ∀ c ∈ storeC1.categories, c.slug ≠ "technology") :=
  ⟨C6_getByCategory_not_found storeC1 "nonexistent-slug" 1 10,
   C6_getByCategory_not_found storeC1 "technology" 1 10⟩

/-- C7: for `page ≥ 1` and `pageSize ≥ 1` each paginated operation succeeds,
returns at most `pageSize` records, reports `total` as the count of all
records matching its filter, and reports `totalPages = ⌈total / pageSize⌉`. -/
theorem C7_pagination_shape (s : Store) (q : String) (page limit : Int)
    (hp : 1 ≤ page) (hl : 1 ≤ limit) :
    (∃ r, postQueries.getPublished s page limit = .ok r ∧
        (r.posts.length : Int) ≤ limit ∧
        r.total = (s.posts.filter fun p => p.status == some PostStatus.published).length ∧
        r.totalPages = some ⌈(r.total : ℚ) / (limit : ℚ)⌉) ∧
    (∃ r, postQueries.getAll s page limit = .ok r ∧
        (r.posts.length : Int) ≤ limit ∧
        r.total = s.posts.length ∧
        r.totalPages = some ⌈(r.total : ℚ) / (limit : ℚ)⌉) ∧
    (∃ r, postQueries.search s q page limit = .ok r ∧
        (r.posts.length : Int) ≤ limit ∧
        r.total = (s.posts.filter (searchPred ("%" ++ q ++ "%"))).length ∧
        r.totalPages = some ⌈(r.total : ℚ) / (limit : ℚ)⌉) ∧
    (∃ r, userQueries.getAll s page limit = .ok r ∧
        (r.users.length : Int) ≤ limit ∧
        r.total = s.users.length ∧
        r.totalPages = some ⌈(r.total : ℚ) / (limit : ℚ)⌉) := by
  have ho : 0 ≤ (page - 1) * limit := mul_nonneg (by omega) (by omega)
  refine ⟨⟨_, getPublished_ok s page limit (by omega) ho, ?_, rfl, ?_⟩,
          ⟨_, getAllPosts_ok s page limit (by omega) ho, ?_, rfl, ?_⟩,
          ⟨_, search_ok s q page limit (by omega) ho, ?_, rfl, ?_⟩,
          ⟨_, getAllUsers_ok s page limit (by omega) ho, ?_, rfl, ?_⟩⟩ <;>
    first
      | exact take_length_int _ _ (by omega)
      | exact jsCeilDiv_natCast _ _ (by omega)

/-- C7 witness: the shape properties instantiated at `storeW`, `page = 1`,
`pageSize = 10`, query "x". -/
theorem C7_pagination_shape_witness :
    (∃ r, postQueries.getPublished storeW 1 10 = .ok r ∧
        (r.posts.length : Int) ≤ 10 ∧
        r.total = (storeW.posts.filter fun p => p.status == some PostStatus.published).length ∧
        r.totalPages = some ⌈(r.total : ℚ) / ((10 : Int) : ℚ)⌉) ∧
    (∃ r, postQueries.getAll storeW 1 10 = .ok r ∧
        (r.posts.length : Int) ≤ 10 ∧
        r.total = storeW.posts.length ∧
        r.totalPages = some ⌈(r.total : ℚ) / ((10 : Int) : ℚ)⌉) ∧
    (∃ r, postQueries.search storeW "x" 1 10 = .ok r ∧
        (r.posts.length : Int) ≤ 10 ∧
        r.total = (storeW.posts.filter (searchPred ("%" ++ "x" ++ "%"))).length ∧
        r.totalPages = some ⌈(r.total : ℚ) / ((10 : Int) : ℚ)⌉) ∧
    (∃ r, userQueries.getAll storeW 1 10 = .ok r ∧
        (r.users.length : Int) ≤ 10 ∧
        r.total = storeW.users.length ∧
        r.totalPages = some ⌈(r.total : ℚ) / ((10 : Int) : ℚ)⌉) :=
  C7_pagination_shape storeW "x" 1 10 (by decide) (by decide)

/-- C8: every record returned by `getPublished` has status published, and
the returned page is sorted by `publishedAt` descending (`pubDescRow`, which
places null timestamps first, as the store's `DESC` ordering does), for
every store state and every page/pageSize on which the query succeeds. -/
theorem C8_getPublished_filter_sorted (s : Store) (page limit : Int)
    (r : PostsPage) (h : postQueries.getPublished s page limit = .ok r) :
    (∀ x ∈ r.posts, x.post.status = some PostStatus.published) ∧
    List.Sorted pubDescRow r.posts := by
  simp only [postQueries.getPublished] at h
  split at h
  · exact absurd h (by simp)
  · next v heq =>
    injection h with h'
    subst h'
    have hv : v = ((List.insertionSort pubDescRow
        ((leftJoinAuthor s.posts s.users).filter fun x =>
          x.post.status == some PostStatus.published)).drop
        ((page - 1) * limit).toNat).take limit.toNat := by
      unfold sqlPage at heq
      split_ifs at heq
      injection heq with h2
      exact h2.symm
    subst hv
    constructor
    · intro x hx
      have hx1 := ((List.take_sublist _ _).trans (List.drop_sublist _ _)).subset hx
      have hx2 := (List.mem_insertionSort pubDescRow).mp hx1
      exact beq_iff_eq.mp (List.mem_filter.mp hx2).2
    · exact List.Pairwise.sublist
        ((List.take_sublist _ _).trans (List.drop_sublist _ _))
        (List.sorted_insertionSort pubDescRow _)

/-- C9: `userQueries.update` and `postQueries.update` return the persisted
record with `updatedAt` set to the current time, apply the patch to exactly
the row with the given id, and return the absent result `none` with the
store unchanged when no row has the id (assuming the primary-key uniqueness
the schema enforces). -/
theorem C9_update_semantics (s : Store) (uid pid : String) (upt : UserPatch)
    (ppt : PostPatch) (now : Int) (hU : (s.users.map User.id).Nodup)
    (hP : (s.posts.map Post.id).Nodup) :
    ((∀ u ∈ s.users, u.id ≠ uid) → userQueries.update s uid upt now = (none, s)) ∧
    (∀ u ∈ s.users, u.id = uid →
        (userQueries.update s uid upt now).fst = some (applyUserPatch upt now u) ∧
        (applyUserPatch upt now u).updatedAt = now ∧
        applyUserPatch upt now u ∈ (userQueries.update s uid upt now).snd.users) ∧
    ((∀ p ∈ s.posts, p.id ≠ pid) → postQueries.update s pid ppt now = (none, s)) ∧
    (∀ p ∈ s.posts, p.id = pid →
        (postQueries.update s pid ppt now).fst = some (applyPostPatch ppt now p) ∧
        (applyPostPatch ppt now p).updatedAt = now ∧
        applyPostPatch ppt now p ∈ (postQueries.update s pid ppt now).snd.posts) := by
  refine ⟨?_, ?_, ?_, ?_⟩
  · intro hmiss
    have hfe : s.users.filter (fun u => u.id == uid) = [] :=
      List.filter_eq_nil_iff.mpr fun u hu => by simp [hmiss u hu]
    have hmap : (s.users.map fun u =>
        if u.id == uid then applyUserPatch upt now u else u) = s.users := by
      have he : (s.users.map fun u =>
          if u.id == uid then applyUserPatch upt now u else u) = s.users.map id :=
        List.map_congr_left fun u hu => by rw [if_neg (by simp [hmiss u hu])]; rfl
      rw [he, List.map_id]
    simp only [userQueries.update, sqlUpdate, hfe, hmap]
    rfl
  · intro u hu hid
    have hfil : s.users.filter (fun x => x.id == uid) = [u] := by
      have h0 := filter_key_eq_singleton User.id u s.users hU hu
      rw [hid] at h0
      exact h0
    refine ⟨?_, rfl, ?_⟩
    · simp only [userQueries.update, sqlUpdate, hfil]
      rfl
    · simp only [userQueries.update, sqlUpdate]
      exact List.mem_map.mpr ⟨u, hu, by rw [if_pos (by simp [hid])]⟩
  · intro hmiss
    have hfe : s.posts.filter (fun p => p.id == pid) = [] :=
      List.filter_eq_nil_iff.mpr fun p hp => by simp [hmiss p hp]
    have hmap : (s.posts.map fun p =>
        if p.id == pid then applyPostPatch ppt now p else p) = s.posts := by
      have he : (s.posts.map fun p =>
          if p.id == pid then applyPostPatch ppt now p else p) = s.posts.map id :=
        List.map_congr_left fun p hp => by rw [if_neg (by simp [hmiss p hp])]; rfl
      rw [he, List.map_id]
    simp only [postQueries.update, sqlUpdate, hfe, hmap]
    rfl
  · intro p hp hid
    have hfil : s.posts.filter (fun x => x.id == pid) = [p] := by
      have h0 := filter_key_eq_singleton Post.id p s.posts hP hp
      rw [hid] at h0
      exact h0
    refine ⟨?_, rfl, ?_⟩
    · simp only [postQueries.update, sqlUpdate, hfil]
      rfl
    · simp only [postQueries.update, sqlUpdate]
      exact List.mem_map.mpr ⟨p, hp, by rw [if_pos (by simp [hid])]⟩

/-- C9 witness: the update semantics instantiated at `storeW` with the
existing ids "u1" and "pp1" and the empty patches. -/
theorem C9_update_witness :
    ((∀ u ∈ storeW.users, u.id ≠ "u1") →
        userQueries.update storeW "u1" {} 42 = (none, storeW)) ∧
    (∀ u ∈ storeW.users, u.id = "u1" →
        (userQueries.update storeW "u1" {} 42).fst = some (applyUserPatch {} 42 u) ∧
        (applyUserPatch {} 42 u).updatedAt = 42 ∧
        applyUserPatch {} 42 u ∈ (userQueries.update storeW "u1" {} 42).snd.users) ∧
    ((∀ p ∈ storeW.posts, p.id ≠ "pp1") →
        postQueries.update storeW "pp1" {} 42 = (none, storeW)) ∧
    (∀ p ∈ storeW.posts, p.id = "pp1" →
        (postQueries.update storeW "pp1" {} 42).fst = some (applyPostPatch {} 42 p) ∧
        (applyPostPatch {} 42 p).updatedAt = 42 ∧
        applyPostPatch {} 42 p ∈ (postQueries.update storeW "pp1" {} 42).snd.posts) :=
  C9_update_semantics storeW "u1" "pp1" {} {} 42 (by decide) (by decide)

/-- C10: `incrementViews` rewrites exactly the matching post row, setting
`viewCount` to its successor (null stays null, the SQL `NULL + 1`) and
`updatedAt` to the current time, and leaves every other field of that row
and every other table of the store unchanged. -/
theorem C10_incrementViews_frame (s : Store) (id : String) (now : Int) :
    (postQueries.incrementViews s id now).snd.posts =
      (s.posts.map fun p => if p.id = id then
        { p with viewCount := p.viewCount.map (· + 1), updatedAt := now } else p) ∧
    (postQueries.incrementViews s id now).snd.users = s.users ∧
    (postQueries.incrementViews s id now).snd.categories = s.categories ∧
    (postQueries.incrementViews s id now).snd.tags = s.tags ∧
    (postQueries.incrementViews s id now).snd.postCategories = s.postCategories ∧
    (postQueries.incrementViews s id now).snd.postTags = s.postTags ∧
    (∀ p ∈ s.posts, p.id = id →
        { p with viewCount := p.viewCount.map (· + 1), updatedAt := now } ∈
            (postQueries.incrementViews s id now).snd.posts ∧
        ({ p with viewCount := p.viewCount.map (· + 1), updatedAt := now }).title = p.title ∧
        ({ p with viewCount := p.viewCount.map (· + 1), updatedAt := now }).slug = p.slug ∧
        ({ p with viewCount := p.viewCount.map (· + 1), updatedAt := now }).content = p.content ∧
        ({ p with viewCount := p.viewCount.map (· + 1), updatedAt := now }).excerpt = p.excerpt ∧
        ({ p with viewCount := p.viewCount.map (· + 1), updatedAt := now }).coverImage = p.coverImage ∧
        ({ p with viewCount := p.viewCount.map (· + 1), updatedAt := now }).status = p.status ∧
        ({ p with viewCount := p.viewCount.map (· + 1), updatedAt := now }).authorId = p.authorId ∧
        ({ p with viewCount := p.viewCount.map (· + 1), updatedAt := now }).aiGenerated = p.aiGenerated ∧
        ({ p with viewCount := p.viewCount.map (· + 1), updatedAt := now }).seoTitle = p.seoTitle ∧
        ({ p with viewCount := p.viewCount.map (· + 1), updatedAt := now }).seoDescription = p.seoDescription ∧
        ({ p with viewCount := p.viewCount.map (· + 1), updatedAt := now }).publishedAt = p.publishedAt ∧
        ({ p with viewCount := p.viewCount.map (· + 1), updatedAt := now }).createdAt = p.createdAt ∧
        ({ p with viewCount := p.viewCount.map (· + 1), updatedAt := now }).viewCount = p.viewCount.map (· + 1) ∧
        ({ p with viewCount := p.viewCount.map (· + 1), updatedAt := now }).updatedAt = now) := by
  refine ⟨?_, rfl, rfl, rfl, rfl, rfl, ?_⟩
  · simp only [postQueries.incrementViews, sqlUpdate]
    exact map_cond_beq Post.id id _ s.posts
  · intro p hp hid
    refine ⟨?_, rfl, rfl, rfl, rfl, rfl, rfl, rfl, rfl, rfl, rfl, rfl, rfl, rfl, rfl⟩
    simp only [postQueries.incrementViews, sqlUpdate]
    exact List.mem_map.mpr ⟨p, hp, by rw [if_pos (by simp [hid])]⟩

/-- C10 witness: the frame property instantiated at `storeW`, id "pp1",
time 99. -/
theorem C10_incrementViews_frame_witness :
    (postQueries.incrementViews storeW "pp1" 99).snd.posts =
      (storeW.posts.map fun p => if p.id = "pp1" then
        { p with viewCount := p.viewCount.map (· + 1), updatedAt := 99 } else p) ∧
    (postQueries.incrementViews storeW "pp1" 99).snd.users = storeW.users ∧
    (postQueries.incrementViews storeW "pp1" 99).snd.categories = storeW.categories ∧
    (postQueries.incrementViews storeW "pp1" 99).snd.tags = storeW.tags ∧
    (postQueries.incrementViews storeW "pp1" 99).snd.postCategories = storeW.postCategories ∧
    (postQueries.incrementViews storeW "pp1" 99).snd.postTags = storeW.postTags ∧
    (∀ p ∈ storeW.posts, p.id = "pp1" →
        { p with viewCount := p.viewCount.map (· + 1), updatedAt := 99 } ∈
            (postQueries.incrementViews storeW "pp1" 99).snd.posts ∧
        ({ p with viewCount := p.viewCount.map (· + 1), updatedAt := 99 }).title = p.title ∧
        ({ p with viewCount := p.viewCount.map (· + 1), updatedAt := 99 }).slug = p.slug ∧
        ({ p with viewCount := p.viewCount.map (· + 1), updatedAt := 99 }).content = p.content ∧
        ({ p with viewCount := p.viewCount.map (· + 1), updatedAt := 99 }).excerpt = p.excerpt ∧
        ({ p with viewCount := p.viewCount.map (· + 1), updatedAt := 99 }).coverImage = p.coverImage ∧
        ({ p with viewCount := p.viewCount.map (· + 1), updatedAt := 99 }).status = p.status ∧
        ({ p with viewCount := p.viewCount.map (· + 1), updatedAt := 99 }).authorId = p.authorId ∧
        ({ p with viewCount := p.viewCount.map (· + 1), updatedAt := 99 }).aiGenerated = p.aiGenerated ∧
        ({ p with viewCount := p.viewCount.map (· + 1), updatedAt := 99 }).seoTitle = p.seoTitle ∧
        ({ p with viewCount := p.viewCount.map (· + 1), updatedAt := 99 }).seoDescription = p.seoDescription ∧
        ({ p with viewCount := p.viewCount.map (· + 1), updatedAt := 99 }).publishedAt = p.publishedAt ∧
        ({ p with viewCount := p.viewCount.map (· + 1), updatedAt := 99 }).createdAt = p.createdAt ∧
        ({ p with viewCount := p.viewCount.map (· + 1), updatedAt := 99 }).viewCount = p.viewCount.map (· + 1) ∧
        ({ p with viewCount := p.viewCount.map (· + 1), updatedAt := 99 }).updatedAt = 99) :=
  C10_incrementViews_frame storeW "pp1" 99

theorem tagRowsFor_countP (s : Store) (hP : (s.posts.map Post.id).Nodup)
    (j : PostTag) :
    ((tagRowsFor s j).countP fun r => (r.1.bind PostTag.postId).isSome) =
      if j.postId.isSome then 1 else 0 := by
  unfold tagRowsFor
  cases hpid : j.postId with
  | none =>
    have hfe : s.posts.filter (fun p =>
        (none : Option String) == some p.id &&
          p.status == some PostStatus.published) = [] := by
      refine List.filter_eq_nil_iff.mpr fun p _ => ?_
      simp
    rw [hfe]
    simp [hpid]
  | some pid =>
    cases hfil : s.posts.filter (fun p =>
        (some pid : Option String) == some p.id &&
          p.status == some PostStatus.published) with
    | nil =>
      simp [hpid]
    | cons x xs =>
      have hx : xs = [] := by
        have hle := length_filter_le_one_of_key Post.id pid
          (fun p => (some pid : Option String) == some p.id &&
            p.status == some PostStatus.published)
          (fun p hp => by
            rw [Bool.and_eq_true] at hp
            exact (Option.some_inj.mp (beq_iff_eq.mp hp.1)).symm)
          s.posts hP
        rw [hfil] at hle
        simpa using hle
      subst hx
      simp [hpid]

theorem tagPostCount_eq (s : Store) (t : Tag)
    (hP : (s.posts.map Post.id).Nodup) :
    tagPostCount s t =
      (s.postTags.filter fun j => j.tagId == some t.id && j.postId.isSome).length := by
  rw [← List.countP_eq_length_filter]
  have hsplit : (s.postTags.countP fun j => j.tagId == some t.id && j.postId.isSome) =
      (s.postTags.filter fun j => j.tagId == some t.id).countP fun j => j.postId.isSome := by
    rw [List.countP_filter]
    refine List.countP_congr fun j _ => ?_
    constructor
    · intro hj
      rw [Bool.and_eq_true] at hj
      simp [hj.1, hj.2]
    · intro hj
      rw [Bool.and_eq_true] at hj
      simp [hj.1, hj.2]
  rw [hsplit]
  unfold tagPostCount tagJoinRows
  cases hjs : s.postTags.filter (fun j => j.tagId == some t.id) with
  | nil => simp
  | cons j js =>
    rw [countP_flatMap]
    have hmapeq : ((j :: js).map fun x =>
        ((tagRowsFor s x).countP fun r => (r.1.bind PostTag.postId).isSome)) =
        (j :: js).map fun x => if x.postId.isSome then 1 else 0 :=
      List.map_congr_left fun x _ => tagRowsFor_countP s hP x
    rw [hmapeq, sum_ite_eq_countP]

/-- C3 amended: `tagQueries.getAll` is sorted by descending junction-row
count (the count of junction rows with a non-null `postId`, regardless of
the linked post's status) with ties broken by ascending tag name, and
`tagQueries.getPopular` is sorted by descending junction-row count only
(ties stay in store order), keeps only tags with a positive count, and
returns at most `limit` tags. -/
theorem C3_tag_ordering (s : Store) (limit : Int)
    (hP : (s.posts.map Post.id).Nodup) (hl : 0 ≤ limit) :
    List.Sorted tagAllRel (tagQueries.getAll s) ∧
    (∀ e ∈ tagQueries.getAll s,
        e.postCount =
          (s.postTags.filter fun j =>
            j.tagId == some e.tag.id && j.postId.isSome).length) ∧
    (∃ l, tagQueries.getPopular s limit = .ok l ∧
        List.Sorted popRel l ∧
        (∀ e ∈ l, 0 < e.postCount ∧
            e.postCount =
              (s.postTags.filter fun j =>
                j.tagId == some e.tag.id && j.postId.isSome).length) ∧
        l.length ≤ limit.toNat) := by
  refine ⟨List.sorted_insertionSort tagAllRel _, ?_, ?_⟩
  · intro e he
    have he1 := (List.mem_insertionSort tagAllRel).mp he
    obtain ⟨t, _, rfl⟩ := List.mem_map.mp he1
    exact tagPostCount_eq s t hP
  · have hok : tagQueries.getPopular s limit = .ok
        ((List.insertionSort popRel
          ((s.tags.map fun t => (⟨t, tagPostCount s t⟩ : TagWithCount)).filter
            fun e => 0 < e.postCount)).take limit.toNat) := by
      simp only [tagQueries.getPopular]
      exact sqlLimit_ok limit _ hl
    refine ⟨_, hok, ?_, ?_, ?_⟩
    · exact List.Pairwise.sublist (List.take_sublist _ _)
        (List.sorted_insertionSort popRel _)
    · intro e he
      have he1 := (List.take_sublist _ _).subset he
      have he2 := (List.mem_insertionSort popRel).mp he1
      have he3 := List.mem_filter.mp he2
      obtain ⟨t, _, rfl⟩ := List.mem_map.mp he3.1
      exact ⟨by simpa using he3.2, tagPostCount_eq s t hP⟩
    · exact List.length_take_le _ _

/-- C3 witness: the amended ordering properties instantiated at the store
`storeC3a` with `limit = 10`. -/
theorem C3_tag_ordering_witness :
    (storeC3a.posts.map Post.id).Nodup ∧
    (List.Sorted tagAllRel (tagQueries.getAll storeC3a) ∧
     (∀ e ∈ tagQueries.getAll storeC3a,
        e.postCount =
          (storeC3a.postTags.filter fun j =>
            j.tagId == some e.tag.id && j.postId.isSome).length) ∧
     (∃ l, tagQueries.getPopular storeC3a 10 = .ok l ∧
        List.Sorted popRel l ∧
        (∀ e ∈ l, 0 < e.postCount ∧
            e.postCount =
              (storeC3a.postTags.filter fun j =>
                j.tagId == some e.tag.id && j.postId.isSome).length) ∧
        l.length ≤ (10 : Int).toNat)) :=
  ⟨by decide, C3_tag_ordering storeC3a 10 (by decide) (by decide)⟩

/-- C4 amended: for valid pagination input and unique user ids, `search`
returns exactly the published posts whose title, content or excerpt matches
the case-insensitive `LIKE` pattern `%q%` (with `%`, `_` and `\` in `q`
acting as unescaped pattern characters), ordered by `publishedAt` descending and
paginated, together with the matching total and the echoed query string; in
particular a query matching no post yields zero records and `total = 0`. -/
theorem C4_search_like (s : Store) (q : String) (page limit : Int)
    (hU : (s.users.map User.id).Nodup) (hp : 1 ≤ page) (hl : 1 ≤ limit) :
    ∃ r, postQueries.search s q page limit = .ok r ∧
      r.posts.map PostWithAuthor.post =
        ((List.insertionSort pubDescPost
            (s.posts.filter (searchPred ("%" ++ q ++ "%")))).drop
          ((page - 1) * limit).toNat).take limit.toNat ∧
      (∀ x ∈ r.posts, x.post.status = some PostStatus.published ∧
          (ilikeStr x.post.title ("%" ++ q ++ "%") ||
           ilikeOpt x.post.content ("%" ++ q ++ "%") ||
           ilikeOpt x.post.excerpt ("%" ++ q ++ "%")) = true) ∧
      r.total = (s.posts.filter (searchPred ("%" ++ q ++ "%"))).length ∧
      r.query = q ∧
      ((∀ p ∈ s.posts, searchPred ("%" ++ q ++ "%") p = false) →
          r.posts = [] ∧ r.total = 0) := by
  have ho : 0 ≤ (page - 1) * limit := mul_nonneg (by omega) (by omega)
  have hrows : (leftJoinAuthor s.posts s.users).filter
      (fun r => searchPred ("%" ++ q ++ "%") r.post) =
      (s.posts.filter (searchPred ("%" ++ q ++ "%"))).map
        fun p => ⟨p, authorFor s.users p⟩ := by
    rw [leftJoinAuthor_eq_map s.posts s.users hU, List.filter_map]
    rfl
  have hsort : List.insertionSort pubDescRow
      ((s.posts.filter (searchPred ("%" ++ q ++ "%"))).map
        fun p => ⟨p, authorFor s.users p⟩) =
      (List.insertionSort pubDescPost
        (s.posts.filter (searchPred ("%" ++ q ++ "%")))).map
        fun p => ⟨p, authorFor s.users p⟩ :=
    (List.map_insertionSort pubDescPost pubDescRow
      (fun p => ⟨p, authorFor s.users p⟩)
      (s.posts.filter (searchPred ("%" ++ q ++ "%")))
      (fun _ _ _ _ => Iff.rfl)).symm
  refine ⟨_, search_ok s q page limit (by omega) ho, ?_, ?_, rfl, rfl, ?_⟩
  · show (((List.insertionSort pubDescRow
        ((leftJoinAuthor s.posts s.users).filter fun r =>
          searchPred ("%" ++ q ++ "%") r.post)).drop
        ((page - 1) * limit).toNat).take limit.toNat).map PostWithAuthor.post = _
    rw [hrows, hsort, ← List.map_drop, ← List.map_take, List.map_map]
    have hid : (PostWithAuthor.post ∘ fun p => (⟨p, authorFor s.users p⟩ : PostWithAuthor)) = id :=
      rfl
    rw [hid, List.map_id]
  · intro x hx
    have hx1 := ((List.take_sublist _ _).trans (List.drop_sublist _ _)).subset hx
    have hx2 := (List.mem_insertionSort pubDescRow).mp hx1
    have hx3 := (List.mem_filter.mp hx2).2
    rw [searchPred, Bool.and_eq_true] at hx3
    exact ⟨beq_iff_eq.mp hx3.1, hx3.2⟩
  · intro hall
    have hfe : s.posts.filter (searchPred ("%" ++ q ++ "%")) = [] :=
      List.filter_eq_nil_iff.mpr fun p hp => by simp [hall p hp]
    constructor
    · show ((List.insertionSort pubDescRow
        ((leftJoinAuthor s.posts s.users).filter fun r =>
          searchPred ("%" ++ q ++ "%") r.post)).drop
        ((page - 1) * limit).toNat).take limit.toNat = []
      rw [hrows, hfe]
      simp
    · show (s.posts.filter (searchPred ("%" ++ q ++ "%"))).length = 0
      rw [hfe]
      rfl

/-- C4 witness: the amended search characterization instantiated at
`storeC4` with query "ell", `page = 1`, `pageSize = 10`. -/
theorem C4_search_like_witness :
    ∃ r, postQueries.search storeC4 "ell" 1 10 = .ok r ∧
      r.posts.map PostWithAuthor.post =
        ((List.insertionSort pubDescPost
            (storeC4.posts.filter (searchPred ("%" ++ "ell" ++ "%")))).drop
          (((1 : Int) - 1) * 10).toNat).take (10 : Int).toNat ∧
      (∀ x ∈ r.posts, x.post.status = some PostStatus.published ∧
          (ilikeStr x.post.title ("%" ++ "ell" ++ "%") ||
           ilikeOpt x.post.content ("%" ++ "ell" ++ "%") ||
           ilikeOpt x.post.excerpt ("%" ++ "ell" ++ "%")) = true) ∧
      r.total = (storeC4.posts.filter (searchPred ("%" ++ "ell" ++ "%"))).length ∧
      r.query = "ell" ∧
      ((∀ p ∈ storeC4.posts, searchPred ("%" ++ "ell" ++ "%") p = false) →
          r.posts = [] ∧ r.total = 0) :=
  C4_search_like storeC4 "ell" 1 10 (by decide) (by decide) (by decide)

/-- C8 witness: on the seeded mixture `storeW` (one draft, two published,
one archived) the first page contains exactly the two published posts in
descending `publishedAt` order. -/
theorem C8_getPublished_witness :
    (∀ x ∈ [(⟨pPub1, some ⟨"u1", some "Ann"⟩⟩ : PostWithAuthor), ⟨pPub2, none⟩],
        x.post.status = some PostStatus.published) ∧
    List.Sorted pubDescRow
      [(⟨pPub1, some ⟨"u1", some "Ann"⟩⟩ : PostWithAuthor), ⟨pPub2, none⟩] :=
  C8_getPublished_filter_sorted storeW 1 10
    { posts := [⟨pPub1, some ⟨"u1", some "Ann"⟩⟩, ⟨pPub2, none⟩],
      total := 2, page := 1, limit := 10, totalPages := some 1 }
    (by decide)

end Blog
